import Mathlib

/-!
Verification of the MonitoringSEMD reconciliation pipeline.

Shallow embedding of the fetch-verify-persist pipeline of the repository:
* `CConnection.execute_stmt` (src/core/database/mysql_connection.py),
* the batched verifier client `SemdService.send_requests_in_chunks` and the
  request-value shaping helper `prepare_request_values`
  (src/app/external/service/child_services/Vista3Service.py, src/app/external/Utils.py),
* the `MonitoringService` collectors, existence check, conditional insert and
  orchestration loop (src/app/external/service/service.py).

Async I/O is embedded by making the outcomes of the suspension points explicit
parameters (attempt traces for the database calls, per-candidate attempt
oracles for the HTTP calls, completion-order result lists for
`asyncio.as_completed`), and both `asyncio.Semaphore` gates are embedded as
labelled transition systems: the reconciliation admission gate, and the
per-call retry semaphore of the batched verifier call, which `send_chunk`
re-acquires while still holding it.
-/

namespace MonitoringSEMD

/-! ### Database driver: `CConnection.execute_stmt` -/

/-- Outcome of one attempt of `session.execute(stmt); session.commit()` in
`CConnection.execute_stmt`.  `operationalError` is sqlalchemy's
`OperationalError`; `integrityError` and `databaseError` are the
`ProgrammingError` / `DatabaseError` classes caught by the second clause. -/
inductive DbAttempt
  | ok (r : Int)
  | operationalError
  | integrityError (msg : String)
  | databaseError (msg : String)
deriving DecidableEq, Repr

/-- The value `core.errors.DatabaseException` built (and returned, not raised)
by the `ProgrammingError, DatabaseError` clause of `execute_stmt`. -/
structure DatabaseException where
  message : String
deriving DecidableEq, Repr

/-- Whether an attempt outcome is an `OperationalError`. -/
def DbAttempt.isOpErr : DbAttempt → Bool
  | .operationalError => true
  | _ => false

/-- What a single non-operational attempt outcome makes `execute_stmt` return:
a `Result` for success, a `DatabaseException` value for integrity / database
errors.  `OperationalError` never returns by itself (it recurses). -/
def DbAttempt.interp : DbAttempt → Option (Int ⊕ DatabaseException)
  | .ok r => some (.inl r)
  | .operationalError => none
  | .integrityError m => some (.inr ⟨m⟩)
  | .databaseError m => some (.inr ⟨m⟩)

/-- `CConnection.execute_stmt` over an explicit trace of attempt outcomes.
The source catches `OperationalError`, sleeps 0.2 s (not modelled) and
recurses on itself with no retry bound; `ProgrammingError` / `DatabaseError`
are not retried and make it return a `DatabaseException` object.  The result
is the value returned together with the number of attempts consumed; `none`
means the recursion was still retrying when the modelled attempt trace ran
out. -/
def execute_stmt : List DbAttempt → Option (Int ⊕ DatabaseException) × Nat
  | [] => (none, 0)
  | .ok r :: _ => (some (.inl r), 1)
  | .operationalError :: rest =>
      let t := execute_stmt rest
      (t.1, t.2 + 1)
  | .integrityError m :: _ => (some (.inr ⟨m⟩), 1)
  | .databaseError m :: _ => (some (.inr ⟨m⟩), 1)

/-! ### Pipeline orchestration loop: `insert_semd_all_info` -/

/-- A permanent (non-transient) failure raised by one candidate's
`process_semd_data` task. -/
inductive TaskErr
  | permanentServiceError
deriving DecidableEq, Repr

/-- The awaiting loop of `MonitoringService.insert_semd_all_info`:
`for task in asyncio.as_completed(tasks): await task`, applied to the
completion-ordered list of task results.  Each `await task` re-raises a task's
exception; there is no `try`/`except` in the loop, in
`insert_semd_all_info`, or in `main_scrypt`. -/
def insert_semd_all_info : List (Except TaskErr Unit) → Except TaskErr Unit
  | [] => .ok ()
  | .ok () :: rest => insert_semd_all_info rest
  | .error e :: _ => .error e

/-! ### Reconciliation admission gate: `asyncio.Semaphore(8)` -/

/-- The reconciliation gate size, from `MonitoringService.__init__`:
`self.semaphore = asyncio.Semaphore(8)`. -/
def reconciliation_gate : Nat := 8

/-- Scheduler state of one pipeline run: how many `process_semd_data` tasks
are still waiting at `async with self.semaphore`, how many are executing the
gated body, and how many have finished. -/
structure GateState where
  waiting : Nat
  running : Nat
  finished : Nat
deriving DecidableEq, Repr

/-- One scheduler step of the gated fan-out: a waiting task may enter the
gated body only while fewer than `reconciliation_gate` tasks hold the
semaphore (it acquires a slot); a running task may finish, releasing its
slot. -/
inductive GateStep : GateState → GateState → Prop
  | acquire (s : GateState) (hw : 0 < s.waiting) (hr : s.running < reconciliation_gate) :
      GateStep s ⟨s.waiting - 1, s.running + 1, s.finished⟩
  | finish (s : GateState) (hr : 0 < s.running) :
      GateStep s ⟨s.waiting, s.running - 1, s.finished + 1⟩

/-- States reachable from the start of a run over `n` candidates (all tasks
created, none admitted yet). -/
inductive GateReachable (n : Nat) : GateState → Prop
  | init : GateReachable n ⟨n, 0, 0⟩
  | step {s t : GateState} : GateReachable n s → GateStep s t → GateReachable n t

/-! ### Request-value shaping: `prepare_request_values` -/

/-- An element of a Python list passed as `params`/`json_data`: either a
pydantic `BaseModel` instance or a plain dict.  The payload content is
abstracted to an identifier. -/
inductive ReqItem
  | model (m : Nat)
  | rawDict (d : Nat)
deriving DecidableEq, Repr

/-- The payload carried by a list element. -/
def ReqItem.payload : ReqItem → Nat
  | .model m => m
  | .rawDict d => d

/-- The runtime shapes `prepare_request_values` branches on:
`None`, a `BaseModel`, a `list`, a `dict`, or anything else. -/
inductive ReqData
  | pyNone
  | model (m : Nat)
  | list (xs : List ReqItem)
  | dict (d : Nat)
  | other
deriving DecidableEq, Repr

/-- Python exceptions the request helpers can raise. -/
inductive PyErr
  | indexError
  | valueError
  | attributeError
  | typeError
deriving DecidableEq, Repr

/-- Shapes produced by a successful `prepare_request_values`. -/
inductive Prepared
  | pyNone
  | dict (d : Nat)
  | list (xs : List Nat)
deriving DecidableEq, Repr

/-- The list comprehension `[data.dict() for data in data]`: element by
element from the left; a non-`BaseModel` element raises `AttributeError`. -/
def dictAll : List ReqItem → Except PyErr (List Nat)
  | [] => .ok []
  | .model m :: rest => (dictAll rest).map (m :: ·)
  | .rawDict _ :: _ => .error .attributeError

/-- `app.external.Utils.prepare_request_values`.  `data[0]` is evaluated
before the emptiness of the list is ever considered, so the empty list raises
`IndexError`.  A `BaseModel` instance is always truthy, so the `model` branch
returns `data.dict()`. -/
def prepare_request_values : ReqData → Except PyErr Prepared
  | .pyNone => .ok .pyNone
  | .model m => .ok (.dict m)
  | .list [] => .error .indexError
  | .list (x :: xs) =>
      match x with
      | .model _ => (dictAll (x :: xs)).map .list
      | .rawDict _ => .ok (.list ((x :: xs).map ReqItem.payload))
  | .dict d => .ok (.dict d)
  | .other => .error .valueError

/-! ### Batched verifier call: `SemdService.send_requests_in_chunks` -/

/-- Outcome of one `client.request` attempt inside `send_chunk`:
success, `httpx.RemoteProtocolError`, or `httpx.ReadTimeout`. -/
inductive ReqOutcome
  | ok (v : Int)
  | protoError
  | timeoutError
deriving DecidableEq, Repr

/-- The two retriable conditions of `send_chunk`. -/
def ReqOutcome.isTransient : ReqOutcome → Bool
  | .ok _ => false
  | .protoError => true
  | .timeoutError => true

/-- State of one `send_chunk(data, retry)` task of the gather.  `pending r`
is a task about to acquire the semaphore permit for its attempt at retry
level `r`; because the recursive retry call sits INSIDE `async with
semaphore:`, such a task still holds the `r` permits of levels `0..r-1`
while it waits.  `finished result attempts` is a task whose call stack has
unwound (releasing every held permit), having made `attempts` request
attempts. -/
inductive ChunkTask
  | pending (retry : Nat)
  | finished (result : Option Int) (attempts : Nat)
deriving DecidableEq, Repr

/-- Configuration of the gather launched by `send_requests_in_chunks`: the
per-candidate task states (in candidate order) and the number of free
permits of the `asyncio.Semaphore(max_concurrent)` created for this call. -/
structure ChunkState where
  tasks : List ChunkTask
  avail : Nat
deriving DecidableEq, Repr

/-- One scheduler step of the gathered `send_chunk` tasks.  A `pending r`
task first passes the `retry > max_retries` guard (so `r ≤ max_retries`
always), then acquires one permit — possible only when a permit is free —
and makes the attempt `attempt i r`:
* a transient failure (`RemoteProtocolError` / `ReadTimeout`) below the
  budget recurses, leaving the task waiting for yet another permit while
  holding all its permits (`retryStep`);
* a transient failure at level `max_retries` makes the inner call at level
  `max_retries + 1` return `None` via the guard, and the nested
  `async with` blocks unwind, releasing all `max_retries + 1` held permits
  (`exhaust`);
* a success returns `response.json()` and likewise unwinds, releasing the
  `r + 1` held permits (`success`).
Non-retriable exceptions are not caught by `send_chunk` and are outside the
modelled outcome type. -/
inductive ChunkStep (maxRetries : Nat) (attempt : Nat → Nat → ReqOutcome) :
    ChunkState → ChunkState → Prop
  | retryStep (s : ChunkState) (i r : Nat)
      (hi : s.tasks[i]? = some (.pending r)) (hv : 0 < s.avail)
      (hr : r < maxRetries) (ht : (attempt i r).isTransient = true) :
      ChunkStep maxRetries attempt s
        ⟨s.tasks.set i (.pending (r + 1)), s.avail - 1⟩
  | exhaust (s : ChunkState) (i : Nat)
      (hi : s.tasks[i]? = some (.pending maxRetries)) (hv : 0 < s.avail)
      (ht : (attempt i maxRetries).isTransient = true) :
      ChunkStep maxRetries attempt s
        ⟨s.tasks.set i (.finished none (maxRetries + 1)), s.avail + maxRetries⟩
  | success (s : ChunkState) (i r : Nat) (v : Int)
      (hi : s.tasks[i]? = some (.pending r)) (hv : 0 < s.avail)
      (hok : attempt i r = .ok v) :
      ChunkStep maxRetries attempt s
        ⟨s.tasks.set i (.finished (some v) (r + 1)), s.avail + r⟩

/-- The executions of the gather: reflexive-transitive closure of
`ChunkStep`. -/
inductive ChunkReachable (maxRetries : Nat) (attempt : Nat → Nat → ReqOutcome) :
    ChunkState → ChunkState → Prop
  | refl (s : ChunkState) : ChunkReachable maxRetries attempt s s
  | step {s t u : ChunkState} : ChunkReachable maxRetries attempt s t →
      ChunkStep maxRetries attempt t u → ChunkReachable maxRetries attempt s u

/-- The terminal state of a task that exhausted its retry budget. -/
def finishedTask (maxRetries : Nat) : ChunkTask :=
  .finished none (maxRetries + 1)

/-- Permits held by a task: a task waiting at retry level `r` holds the
permits of levels `0..r-1`; a finished task has released everything. -/
def heldOf : ChunkTask → Nat
  | .pending r => r
  | .finished _ _ => 0

/-- Total permits held by the tasks. -/
def totalHeld (l : List ChunkTask) : Nat :=
  (l.map heldOf).sum

/-- Invariant of the gather under an all-transient oracle: `n` tasks, each
either waiting within the retry budget or finished with `null` after
`max_retries + 1` attempts, and permits conserved — the free permits plus
the permits held by waiting tasks equal the semaphore capacity. -/
def ChunkInv (maxRetries maxConcurrent n : Nat) (s : ChunkState) : Prop :=
  s.tasks.length = n ∧
  (∀ t ∈ s.tasks, (∃ r, r ≤ maxRetries ∧ t = ChunkTask.pending r) ∨
    t = finishedTask maxRetries) ∧
  s.avail + totalHeld s.tasks = maxConcurrent

/-- `SemdService.send_requests_in_chunks`, for a list of candidate payloads
(the shape every batched caller passes as `json_data`): both `params` and
`json_data` go through `prepare_request_values` before anything else, then a
fresh `asyncio.Semaphore(max_concurrent)` is created and one `send_chunk`
task per prepared element is gathered.  The returned `ChunkState` is the
initial configuration of that gather — all tasks at retry level 0, all
permits free; its asynchronous execution is described by `ChunkStep` with a
per-candidate attempt oracle.  The `url`, `method` and (unused in the
source) `chunk_size` parameters do not affect the modelled control flow. -/
def send_requests_in_chunks (maxRetries maxConcurrent : Nat)
    (params : ReqData) (json_data : List ReqItem) : Except PyErr ChunkState := do
  let _p ← prepare_request_values params
  let j ← prepare_request_values (.list json_data)
  match j with
  | .list xs => .ok ⟨List.replicate xs.length (ChunkTask.pending 0), maxConcurrent⟩
  | _ => .error .typeError

/-! ### Candidate and status-table data model -/

/-- The composite business key of a status record:
`(event_id, person_id, client_id, doc_oid, template_id, semd_name,
semd_code, action_id)`.  `person_id` and `action_id` are nullable in both
the candidate model and the `GetStatusTable2` row. -/
structure SemdKey where
  event_id : Int
  person_id : Option Int
  client_id : Int
  doc_oid : Int
  template_id : Int
  semd_name : String
  semd_code : String
  action_id : Option Int
deriving DecidableEq, Repr

/-- The pydantic `SemdInfo` candidate model
(src/app/external/service/models.py). -/
structure SemdInfo where
  event_id : Int
  client_id : Int
  doc_oid : Int
  template_id : Int
  semd_name : String
  semd_code : String
  date_start : String
  person_id : Option Int := none
  action_id : Option Int := none
  error_description : Option String := none
deriving DecidableEq, Repr

/-- The pydantic `SemdInsertModel`: `SemdInfo` plus the verifier-reported
status fields and the `id` column filled in by `check_semd_exist`. -/
structure SemdInsertModel extends SemdInfo where
  id : Option Int := none
  status_semd : Int := 0
  sign : Int := 0
  sign_mo : Int := 0
deriving DecidableEq, Repr

/-- Business key of a candidate. -/
def SemdInfo.key (c : SemdInfo) : SemdKey :=
  ⟨c.event_id, c.person_id, c.client_id, c.doc_oid, c.template_id,
   c.semd_name, c.semd_code, c.action_id⟩

/-- Business key of an insert model (same eight columns). -/
def SemdInsertModel.key (d : SemdInsertModel) : SemdKey :=
  d.toSemdInfo.key

/-- One persisted `GetStatusTable2` row: the autoincrement primary key `id`
assigned by the database, plus the inserted column values. -/
structure StatusRow where
  rowId : Int
  data : SemdInsertModel
deriving DecidableEq, Repr

/-- The status table plus the next autoincrement id the database will
assign (MySQL autoincrement ids start at 1). -/
structure StatusDb where
  rows : List StatusRow
  nextId : Int
deriving DecidableEq, Repr

/-- Well-formedness of the modelled database: autoincrement ids are
positive, as MySQL assigns them. -/
def StatusDb.wf (st : StatusDb) : Prop :=
  1 ≤ st.nextId ∧ ∀ r ∈ st.rows, 1 ≤ r.rowId

/-- Python truthiness of an `Optional[int]`: `None` and `0` are falsy. -/
def optTruthy : Option Int → Bool
  | none => false
  | some n => !(n == 0)

/-- Number of rows of the status table carrying business key `k`. -/
def countKey (st : StatusDb) (k : SemdKey) : Nat :=
  (st.rows.filter fun r => r.data.key == k).length

/-- `MonitoringService.check_semd_exist`: point lookup of `GetStatusTable2.id`
on the full eight-column composite key (sqlalchemy renders a `None` operand of
`==` as `IS NULL`, which the `Option` equality mirrors), then
`data.id = result if result else None`. -/
def check_semd_exist (st : StatusDb) (data : SemdInsertModel) : SemdInsertModel :=
  let result := (st.rows.find? fun r => r.data.key == data.key).map (·.rowId)
  { data with id := if optTruthy result then result else none }

/-- `MonitoringService.insert_semd_info`: run the existence check; when the
looked-up `id` is falsy, insert the model's column values as a new row (the
database assigns `nextId` as its primary key); always return `True`. -/
def insert_semd_info (st : StatusDb) (data : SemdInsertModel) : StatusDb × Bool :=
  let existing_data := check_semd_exist st data
  if optTruthy existing_data.id then
    (st, true)
  else
    ({ rows := st.rows ++ [⟨st.nextId, existing_data⟩], nextId := st.nextId + 1 }, true)

/-- `MonitoringService.process_semd_data` past the semaphore gate (the gate
itself is the `GateStep` system): call the external verifier on the candidate,
build a `SemdInsertModel` from the response, and reconcile it.  The external
`/semd_infoV2` call is the parameter `verify`. -/
def process_semd_data (verify : SemdInfo → SemdInsertModel) (st : StatusDb)
    (data : SemdInfo) : StatusDb × Bool :=
  insert_semd_info st (verify data)

/-- The effect on the status table of one pipeline run reconciling its
candidate list sequentially (each insert is conditional on the existence
check, as in `insert_semd_all_info`). -/
def processRun (verify : SemdInfo → SemdInsertModel) (st : StatusDb)
    (cs : List SemdInfo) : StatusDb :=
  cs.foldl (fun s c => (process_semd_data verify s c).1) st

/-! ### Clinical store rows used by the two collector queries -/

/-- `Action` columns read by `collect_semd_action_info`; datetimes are
modelled as integers.  `begDate`, `event_id` and `person_id` are nullable
in the schema, `actionType_id` is not. -/
structure ActionRow where
  id : Int
  begDate : Option Int
  event_id : Option Int
  person_id : Option Int
  actionType_id : Int
  deleted : Int
  status : Int
deriving DecidableEq, Repr

/-- `ActionType` columns used by the joins (`context` is non-nullable). -/
structure ActionTypeRow where
  id : Int
  context : String
  deleted : Int
deriving DecidableEq, Repr

/-- `rbPrintTemplate` columns used by the joins (`documentType_id` is
nullable). -/
structure RbPrintTemplateRow where
  id : Int
  context : String
  documentType_id : Option Int
  deleted : Int
deriving DecidableEq, Repr

/-- `rbIEMKDocument` columns used by the queries (`EGISZ_code` and `type`
are nullable, `code` and `name` are not). -/
structure RbIEMKDocumentRow where
  id : Int
  code : String
  name : String
  EGISZ_code : Option Int
  type : Option String
deriving DecidableEq, Repr

/-- `Event` columns used by the queries (`client_id`, `execDate` and
`execPerson_id` are nullable, `eventType_id` is not). -/
structure EventRow where
  id : Int
  client_id : Option Int
  execDate : Option Int
  execPerson_id : Option Int
  eventType_id : Int
  deleted : Int
deriving DecidableEq, Repr

/-- `EventType` columns used by the joins. -/
structure EventTypeRow where
  id : Int
  context : String
  deleted : Int
deriving DecidableEq, Repr

/-- `Client` columns used by the joins. -/
structure ClientRow where
  id : Int
  deleted : Int
deriving DecidableEq, Repr

/-- The clinical store as seen by the two collector queries. -/
structure ClinicalDb where
  actions : List ActionRow
  actionTypes : List ActionTypeRow
  printTemplates : List RbPrintTemplateRow
  iemkDocs : List RbIEMKDocumentRow
  events : List EventRow
  eventTypes : List EventTypeRow
  clients : List ClientRow
deriving Repr

/-! ### SQL semantics helpers -/

/-- SQL predicate on a nullable operand: a comparison involving `NULL` is
unknown, hence not satisfied. -/
def optOn {α : Type} (o : Option α) (p : α → Bool) : Bool :=
  match o with
  | some a => p a
  | none => false

/-- SQL equality of a non-null value with a nullable column. -/
def sqlEqOpt (x : Int) (o : Option Int) : Bool :=
  match o with
  | some y => x == y
  | none => false

/-- LEFT OUTER JOIN of one row against a joined table: every matching row,
or a single all-`NULL` row when no row matches. -/
def leftJoin {α : Type} (rows : List α) (cond : α → Bool) : List (Option α) :=
  match rows.filter cond with
  | [] => [none]
  | l => l.map some

/-- Containment of the character sequence `SMS` in a character list. -/
def containsSMS : List Char → Bool
  | 'S' :: 'M' :: 'S' :: _ => true
  | _ :: rest => containsSMS rest
  | [] => false

/-- SQL `LIKE '%SMS%'`: the code contains the substring `SMS` (matched on
the source's uppercase pattern; collation-dependent case folding is not
modelled). -/
def likeSMS (s : String) : Bool :=
  containsSMS s.data

/-! ### The two collector queries -/

/-- The row shape produced by either collector query before pydantic
validation: every selected column may be `NULL` (columns a query does not
select are `none`, matching pydantic's defaulting of missing keys). -/
structure RawSemdRow where
  event_id : Option Int
  person_id : Option Int
  client_id : Option Int
  doc_oid : Option Int
  template_id : Option Int
  semd_name : Option String
  semd_code : Option String
  date_start : Option String
  action_id : Option Int
deriving DecidableEq, Repr

/-- Pydantic validation of `SemdInfo(**row._mapping)`: the non-`Optional`
fields must be present, the `Optional` ones pass through. -/
def SemdInfo.ofRow (r : RawSemdRow) : Option SemdInfo :=
  match r.event_id, r.client_id, r.doc_oid, r.template_id,
        r.semd_name, r.semd_code, r.date_start with
  | some ev, some cl, some doid, some tid, some nm, some cd, some ds =>
      some ⟨ev, cl, doid, tid, nm, cd, ds, r.person_id, r.action_id, none⟩
  | _, _, _, _, _, _, _ => none

/-- `app.external.Utils.prepare_result`: build one model per row, from the
left; the first row pydantic rejects aborts the whole comprehension (`none`).
The empty result short-circuits to `[]`. -/
def prepare_result : List RawSemdRow → Option (List SemdInfo)
  | [] => some []
  | r :: rs =>
      match SemdInfo.ofRow r, prepare_result rs with
      | some c, some cs => some (c :: cs)
      | _, _ => none

/-- The join tuple of the action query: the `Action` row and the five
outer-joined legs. -/
structure ActionJoined where
  a : ActionRow
  oat : Option ActionTypeRow
  orpt : Option RbPrintTemplateRow
  odoc : Option RbIEMKDocumentRow
  oev : Option EventRow
  ocl : Option ClientRow
deriving DecidableEq, Repr

/-- FROM `Action` with the five LEFT OUTER JOINs of
`collect_semd_action_info`, in source order. -/
def actionJoinRows (db : ClinicalDb) : List ActionJoined :=
  db.actions.flatMap fun a =>
    (leftJoin db.actionTypes fun at' => at'.id == a.actionType_id).flatMap fun oat =>
      (leftJoin db.printTemplates fun rpt =>
          optOn oat fun at' => rpt.context == at'.context).flatMap fun orpt =>
        (leftJoin db.iemkDocs fun doc =>
            optOn orpt fun rpt => sqlEqOpt doc.id rpt.documentType_id).flatMap fun odoc =>
          (leftJoin db.events fun ev => sqlEqOpt ev.id a.event_id).flatMap fun oev =>
            (leftJoin db.clients fun cl =>
                optOn oev fun ev => sqlEqOpt cl.id ev.client_id).map fun ocl =>
              ⟨a, oat, orpt, odoc, oev, ocl⟩

/-- The WHERE clause of `collect_semd_action_info` (the `ActionType.deleted`
condition appears twice in the source). -/
def actionWhere (start_date end_date : Int) (j : ActionJoined) : Bool :=
  j.a.deleted == 0 &&
  optOn j.a.begDate (fun d => start_date ≤ d) &&
  optOn j.a.begDate (fun d => d ≤ end_date) &&
  j.a.status == 2 &&
  optOn j.oev (fun ev => ev.deleted == 0) &&
  optOn j.oat (fun at' => at'.deleted == 0) &&
  optOn j.ocl (fun cl => cl.deleted == 0) &&
  optOn j.orpt (fun rpt => rpt.deleted == 0) &&
  optOn j.oat (fun at' => at'.deleted == 0) &&
  optOn j.odoc (fun doc => doc.type == some "xml") &&
  optOn j.odoc (fun doc => !(likeSMS doc.code))

/-- The SELECT list of `collect_semd_action_info` (`begDate` is cast to a
string as `date_start`). -/
def actionSelect (j : ActionJoined) : RawSemdRow where
  event_id := j.a.event_id
  person_id := j.a.person_id
  client_id := j.oev.bind (·.client_id)
  doc_oid := j.odoc.bind (·.EGISZ_code)
  template_id := j.orpt.map (·.id)
  semd_name := j.odoc.map (·.name)
  semd_code := j.odoc.map (·.code)
  date_start := j.a.begDate.map toString
  action_id := some j.a.id

/-- `MonitoringService.collect_semd_action_info`: run the query, fetch all
rows, shape them with `prepare_result` (`none` models the raised
`ValidationError`). -/
def collect_semd_action_info (db : ClinicalDb) (start_date end_date : Int) :
    Option (List SemdInfo) :=
  prepare_result (((actionJoinRows db).filter (actionWhere start_date end_date)).map
    actionSelect)

/-- The join tuple of the event query: the `rbIEMKDocument` row and the four
outer-joined legs. -/
structure EventJoined where
  doc : RbIEMKDocumentRow
  orpt : Option RbPrintTemplateRow
  oet : Option EventTypeRow
  oev : Option EventRow
  ocl : Option ClientRow
deriving DecidableEq, Repr

/-- FROM `rbIEMKDocument` with the four LEFT OUTER JOINs of
`collect_semd_event_info`, in source order. -/
def eventJoinRows (db : ClinicalDb) : List EventJoined :=
  db.iemkDocs.flatMap fun doc =>
    (leftJoin db.printTemplates fun rpt =>
        sqlEqOpt doc.id rpt.documentType_id).flatMap fun orpt =>
      (leftJoin db.eventTypes fun et =>
          optOn orpt fun rpt => et.context == rpt.context).flatMap fun oet =>
        (leftJoin db.events fun ev =>
            optOn oet fun et => ev.eventType_id == et.id).flatMap fun oev =>
          (leftJoin db.clients fun cl =>
              optOn oev fun ev => sqlEqOpt cl.id ev.client_id).map fun ocl =>
            ⟨doc, orpt, oet, oev, ocl⟩

/-- The WHERE clause of `collect_semd_event_info`. -/
def eventWhere (start_date end_date : Int) (j : EventJoined) : Bool :=
  optOn j.oev (fun ev => optOn ev.execDate fun d => start_date ≤ d) &&
  optOn j.oev (fun ev => optOn ev.execDate fun d => d ≤ end_date) &&
  optOn j.oet (fun et => et.deleted == 0) &&
  optOn j.oev (fun ev => ev.execDate.isSome) &&
  optOn j.oev (fun ev => ev.deleted == 0) &&
  optOn j.ocl (fun cl => cl.deleted == 0) &&
  optOn j.orpt (fun rpt => rpt.deleted == 0) &&
  (j.doc.type == some "xml") &&
  !(likeSMS j.doc.code)

/-- The SELECT list of `collect_semd_event_info` (no `action_id` column is
selected, so pydantic defaults it to `None`). -/
def eventSelect (j : EventJoined) : RawSemdRow where
  event_id := j.oev.map (·.id)
  person_id := j.oev.bind (·.execPerson_id)
  client_id := j.oev.bind (·.client_id)
  doc_oid := j.doc.EGISZ_code
  template_id := j.orpt.map (·.id)
  semd_name := some j.doc.name
  semd_code := some j.doc.code
  date_start := (j.oev.bind (·.execDate)).map toString
  action_id := none

/-- `MonitoringService.collect_semd_event_info`. -/
def collect_semd_event_info (db : ClinicalDb) (start_date end_date : Int) :
    Option (List SemdInfo) :=
  prepare_result (((eventJoinRows db).filter (eventWhere start_date end_date)).map
    eventSelect)

/-- `MonitoringService.collect_semd_all_info`: `asyncio.gather` both queries
(either failure propagates) and chain the two result lists, action-sourced
candidates first. -/
def collect_semd_all_info (db : ClinicalDb) (start_date end_date : Int) :
    Option (List SemdInfo) :=
  match collect_semd_action_info db start_date end_date,
        collect_semd_event_info db start_date end_date with
  | some a, some b => some (a ++ b)
  | _, _ => none

/-! ### Concrete sample data for evaluating the definitions -/

/-- The candidate of the spec's concrete scenario. -/
def sampleInfo : SemdInfo :=
  { event_id := 1, client_id := 3, doc_oid := 100, template_id := 5,
    semd_name := "X", semd_code := "X1", date_start := "2024-01-01",
    person_id := some 2, action_id := some 9 }

/-- The insert model the verifier echo produces for `sampleInfo`. -/
def sampleInsert : SemdInsertModel :=
  { toSemdInfo := sampleInfo }

/-- A status table already holding one record for `sampleInfo`'s key. -/
def sampleDb : StatusDb :=
  { rows := [⟨1, sampleInsert⟩], nextId := 2 }

/-- An empty status table. -/
def emptyDb : StatusDb :=
  { rows := [], nextId := 1 }

/-- An empty clinical store. -/
def emptyClinicalDb : ClinicalDb :=
  ⟨[], [], [], [], [], [], []⟩

/-- A clinical store with one completed, non-deleted action resolving through
every lookup leg to an XML document not matching the exclusion pattern. -/
def sampleClinicalDb : ClinicalDb :=
  { actions := [⟨9, some 5, some 1, some 2, 11, 0, 2⟩],
    actionTypes := [⟨11, "ctx", 0⟩],
    printTemplates := [⟨5, "ctx", some 21, 0⟩],
    iemkDocs := [⟨21, "X1", "X", some 100, some "xml"⟩],
    events := [⟨1, some 3, some 7, some 4, 31, 0⟩],
    eventTypes := [],
    clients := [⟨3, 0⟩] }

/-- The candidate `collect_semd_action_info` produces on `sampleClinicalDb`
over the window `[0, 10]`. -/
def sampleCandidate : SemdInfo :=
  { event_id := 1, client_id := 3, doc_oid := 100, template_id := 5,
    semd_name := "X", semd_code := "X1", date_start := "5",
    person_id := some 2, action_id := some 9 }

/-! ## Shared helper lemmas -/

/-- Characterization of `execute_stmt`: operational errors are consumed one
by one (each with its 0.2 s pause) until the first non-operational attempt,
whose outcome is returned; a trace of nothing but operational errors never
produces a value. -/
theorem execute_stmt_spec (tr : List DbAttempt) :
    execute_stmt tr =
      match tr.dropWhile DbAttempt.isOpErr with
      | [] => (none, tr.length)
      | a :: _ => (a.interp, (tr.takeWhile DbAttempt.isOpErr).length + 1) := by
  induction tr with
  | nil => rfl
  | cons a rest ih =>
      cases a with
      | ok r => rfl
      | operationalError =>
          simp only [execute_stmt, ih, List.dropWhile, List.takeWhile,
            DbAttempt.isOpErr, List.length_cons]
          cases rest.dropWhile DbAttempt.isOpErr <;> simp
      | integrityError m => rfl
      | databaseError m => rfl

/-- Membership in a LEFT OUTER JOIN leg: either the all-`NULL` row, or a
matching row of the joined table. -/
theorem mem_leftJoin {α : Type} {rows : List α} {cond : α → Bool} {o : Option α}
    (h : o ∈ leftJoin rows cond) :
    o = none ∨ ∃ a, o = some a ∧ a ∈ rows ∧ cond a = true := by
  unfold leftJoin at h
  cases hf : rows.filter cond with
  | nil => rw [hf] at h; simp at h; exact Or.inl h
  | cons b l =>
      rw [hf] at h
      simp only [List.mem_map] at h
      obtain ⟨a, ha, rfl⟩ := h
      have hmem : a ∈ rows.filter cond := by rw [hf]; exact ha
      rw [List.mem_filter] at hmem
      exact Or.inr ⟨a, rfl, hmem.1, hmem.2⟩

/-- A satisfied `optOn` predicate forces the leg to be non-`NULL`. -/
theorem optOn_true {α : Type} {o : Option α} {p : α → Bool}
    (h : optOn o p = true) : ∃ a, o = some a ∧ p a = true := by
  cases o with
  | none => simp [optOn] at h
  | some a => exact ⟨a, rfl, h⟩

/-- A satisfied SQL equality against a nullable column pins the column. -/
theorem sqlEqOpt_eq {x : Int} {o : Option Int} (h : sqlEqOpt x o = true) :
    o = some x := by
  cases o with
  | none => simp [sqlEqOpt] at h
  | some y => simp only [sqlEqOpt, beq_iff_eq] at h; rw [h]

/-- A row produced by `prepare_result` comes from a fetched row it
validates. -/
theorem prepare_result_mem (rows : List RawSemdRow) :
    ∀ (cs : List SemdInfo) (c : SemdInfo), prepare_result rows = some cs →
      c ∈ cs → ∃ row ∈ rows, SemdInfo.ofRow row = some c := by
  induction rows with
  | nil =>
      intro cs c h hc
      simp only [prepare_result, Option.some.injEq] at h
      subst h
      simp at hc
  | cons r rs ih =>
      intro cs c h hc
      unfold prepare_result at h
      cases ho : SemdInfo.ofRow r with
      | none => rw [ho] at h; simp at h
      | some c0 =>
          cases hp : prepare_result rs with
          | none => rw [ho, hp] at h; simp at h
          | some cs0 =>
              rw [ho, hp] at h
              simp only [Option.some.injEq] at h
              subst h
              rcases List.mem_cons.mp hc with rfl | hc'
              · exact ⟨r, by simp, ho⟩
              · obtain ⟨row, hrow, hof⟩ := ih cs0 c hp hc'
                exact ⟨row, by simp [hrow], hof⟩

/-- A list of pydantic models survives the `data.dict()` comprehension with
its length intact. -/
theorem dictAll_models (l : List ReqItem) :
    (∀ x ∈ l, ∃ m, x = ReqItem.model m) →
    ∃ ms, dictAll l = .ok ms ∧ ms.length = l.length := by
  induction l with
  | nil => intro _; exact ⟨[], rfl, rfl⟩
  | cons x xs ih =>
      intro hm
      obtain ⟨m, rfl⟩ := hm x (by simp)
      obtain ⟨ms, hms, hlen⟩ := ih fun y hy => hm y (by simp [hy])
      refine ⟨m :: ms, ?_, by simp [hlen]⟩
      simp [dictAll, hms, Except.map]

/-- Reachability between gather configurations composes. -/
theorem chunkTrans {maxRetries : Nat} {attempt : Nat → Nat → ReqOutcome}
    {s t u : ChunkState} (h1 : ChunkReachable maxRetries attempt s t)
    (h2 : ChunkReachable maxRetries attempt t u) :
    ChunkReachable maxRetries attempt s u := by
  induction h2 with
  | refl => exact h1
  | step _ hstep ih => exact ChunkReachable.step ih hstep

/-- Take one step and rewrite its target state. -/
theorem chunkStepEq {maxRetries : Nat} {attempt : Nat → Nat → ReqOutcome}
    {s t u u' : ChunkState} (h : ChunkReachable maxRetries attempt s t)
    (hstep : ChunkStep maxRetries attempt t u) (he : u = u') :
    ChunkReachable maxRetries attempt s u' :=
  he ▸ ChunkReachable.step h hstep

/-- Rewrite both endpoints of a reachability fact. -/
theorem chunkCongr {maxRetries : Nat} {attempt : Nat → Nat → ReqOutcome}
    {s t s' t' : ChunkState} (h : ChunkReachable maxRetries attempt s t)
    (hs : s = s') (ht : t = t') : ChunkReachable maxRetries attempt s' t' :=
  hs ▸ ht ▸ h

/-- Once every permit is held, no task can ever move again. -/
theorem no_step_of_avail_zero (maxRetries : Nat)
    (attempt : Nat → Nat → ReqOutcome) (s : ChunkState) (h : s.avail = 0)
    (t : ChunkState) : ¬ ChunkStep maxRetries attempt s t := by
  intro hstep
  cases hstep <;> omega

/-- Reading the element at the boundary index of an append. -/
theorem getAt_append_cons {α : Type} (as : List α) (b : α) (cs : List α)
    (i : Nat) (h : as.length = i) : (as ++ b :: cs)[i]? = some b := by
  subst h
  induction as with
  | nil => simp
  | cons a as ih => simpa using ih

/-- Updating the element at the boundary index of an append. -/
theorem set_append_cons {α : Type} (as : List α) (b x : α) (cs : List α)
    (i : Nat) (h : as.length = i) : (as ++ b :: cs).set i x = as ++ x :: cs := by
  subst h
  induction as with
  | nil => rfl
  | cons a as ih => simpa using ih

/-- Absorbing one more copy into a replicated prefix. -/
theorem replicate_finish_append {α : Type} (n : Nat) (a : α) (xs : List α) :
    List.replicate n a ++ a :: xs = List.replicate (n + 1) a ++ xs := by
  induction n with
  | zero => rfl
  | succ n ih => simpa [List.replicate_succ] using ih

/-- One task climbs from retry level `r` to retry exhaustion while every
other task holds no permit: each level acquires one more permit, and the
final level `max_retries` releases them all at once. -/
theorem chunk_climb (maxRetries maxConcurrent : Nat)
    (attempt : Nat → Nat → ReqOutcome)
    (htr : ∀ i k, (attempt i k).isTransient = true)
    (hmc : maxRetries < maxConcurrent) (fin rest : Nat) :
    ∀ d r, r + d = maxRetries →
      ChunkReachable maxRetries attempt
        ⟨List.replicate fin (finishedTask maxRetries) ++ ChunkTask.pending r ::
          List.replicate rest (ChunkTask.pending 0), maxConcurrent - r⟩
        ⟨List.replicate (fin + 1) (finishedTask maxRetries) ++
          List.replicate rest (ChunkTask.pending 0), maxConcurrent⟩ := by
  intro d
  induction d with
  | zero =>
      intro r hr
      obtain rfl : maxRetries = r := by omega
      refine chunkStepEq (ChunkReachable.refl _)
        (ChunkStep.exhaust _ fin
          (getAt_append_cons _ _ _ fin (List.length_replicate _ _))
          (by show 0 < maxConcurrent - maxRetries; omega)
          (htr fin maxRetries)) ?_
      rw [set_append_cons _ _ _ _ fin (List.length_replicate _ _)]
      rw [show (ChunkTask.finished none (maxRetries + 1)) = finishedTask maxRetries from rfl]
      rw [replicate_finish_append]
      simp only [ChunkState.mk.injEq]
      exact ⟨by simp, by omega⟩
  | succ d ih =>
      intro r hr
      refine chunkTrans ?_ (ih (r + 1) (by omega))
      refine chunkStepEq (ChunkReachable.refl _)
        (ChunkStep.retryStep _ fin r
          (getAt_append_cons _ _ _ fin (List.length_replicate _ _))
          (by show 0 < maxConcurrent - r; omega)
          (by omega) (htr fin r)) ?_
      rw [set_append_cons _ _ _ _ fin (List.length_replicate _ _)]
      simp only [ChunkState.mk.injEq]
      exact ⟨by simp, by omega⟩

/-- Starting from a fully-released semaphore, the waiting tasks are drained
one after the other, each exhausting its retry budget. -/
theorem chunk_drain (maxRetries maxConcurrent : Nat)
    (attempt : Nat → Nat → ReqOutcome)
    (htr : ∀ i k, (attempt i k).isTransient = true)
    (hmc : maxRetries < maxConcurrent) :
    ∀ rest fin,
      ChunkReachable maxRetries attempt
        ⟨List.replicate fin (finishedTask maxRetries) ++
          List.replicate rest (ChunkTask.pending 0), maxConcurrent⟩
        ⟨List.replicate (fin + rest) (finishedTask maxRetries),
          maxConcurrent⟩ := by
  intro rest
  induction rest with
  | zero =>
      intro fin
      exact chunkCongr (ChunkReachable.refl _) rfl (by simp)
  | succ rest ih =>
      intro fin
      refine chunkTrans ?_
        (chunkCongr (ih (fin + 1)) rfl
          (by rw [show fin + 1 + rest = fin + (rest + 1) by omega]))
      refine chunkCongr
        (chunk_climb maxRetries maxConcurrent attempt htr hmc fin rest
          maxRetries 0 (by omega)) ?_ rfl
      simp [List.replicate_succ]

/-- With as many all-transient candidates as permits, the first `k` tasks
each acquire a permit for their first attempt, fail, and queue for a second
permit while holding the first. -/
theorem chunk_fill (maxRetries : Nat) (attempt : Nat → Nat → ReqOutcome)
    (htr : ∀ i k, (attempt i k).isTransient = true) (hmr : 0 < maxRetries)
    (n : Nat) :
    ∀ k, k ≤ n →
      ChunkReachable maxRetries attempt
        ⟨List.replicate n (ChunkTask.pending 0), n⟩
        ⟨List.replicate k (ChunkTask.pending 1) ++
          List.replicate (n - k) (ChunkTask.pending 0), n - k⟩ := by
  intro k
  induction k with
  | zero =>
      intro _
      exact chunkCongr (ChunkReachable.refl _) rfl (by simp)
  | succ k ih =>
      intro hk
      have hreach := ih (by omega)
      have hs : (⟨List.replicate k (ChunkTask.pending 1) ++
            List.replicate (n - k) (ChunkTask.pending 0), n - k⟩ : ChunkState) =
          ⟨List.replicate k (ChunkTask.pending 1) ++ ChunkTask.pending 0 ::
            List.replicate (n - (k + 1)) (ChunkTask.pending 0), n - k⟩ := by
        rw [show n - k = (n - (k + 1)) + 1 by omega, List.replicate_succ]
      rw [hs] at hreach
      refine chunkStepEq hreach
        (ChunkStep.retryStep _ k 0
          (getAt_append_cons _ _ _ k (List.length_replicate _ _))
          (by show 0 < n - k; omega) hmr (htr k 0)) ?_
      rw [set_append_cons _ _ _ _ k (List.length_replicate _ _),
        replicate_finish_append]
      simp only [ChunkState.mk.injEq]
      exact ⟨by simp, by omega⟩

/-- Effect of updating one task on the total held permits. -/
theorem totalHeld_set :
    ∀ (l : List ChunkTask) (i : Nat) (x t : ChunkTask), l[i]? = some t →
      totalHeld (l.set i x) + heldOf t = totalHeld l + heldOf x := by
  intro l
  induction l with
  | nil => intro i x t h; simp at h
  | cons a l ih =>
      intro i x t h
      cases i with
      | zero =>
          simp only [List.getElem?_cons_zero, Option.some.injEq] at h
          subst h
          simp only [List.set_cons_zero, totalHeld, List.map_cons, List.sum_cons]
          omega
      | succ i =>
          simp only [List.getElem?_cons_succ] at h
          have hih := ih i x t h
          simp only [List.set_cons_succ, totalHeld, List.map_cons,
            List.sum_cons] at *
          omega

/-- Held permits are bounded by the retry budget per task. -/
theorem totalHeld_le (maxRetries : Nat) :
    ∀ l : List ChunkTask,
      (∀ t ∈ l, (∃ r, r ≤ maxRetries ∧ t = ChunkTask.pending r) ∨
        t = finishedTask maxRetries) →
      totalHeld l ≤ l.length * maxRetries := by
  intro l
  induction l with
  | nil => intro _; simp [totalHeld]
  | cons a l ih =>
      intro h
      have ha : heldOf a ≤ maxRetries := by
        rcases h a (by simp) with ⟨r, hr, rfl⟩ | rfl
        · simpa [heldOf] using hr
        · simp [heldOf, finishedTask]
      have hrec := ih fun t ht => h t (by simp [ht])
      have hmul : (l.length + 1) * maxRetries =
          l.length * maxRetries + maxRetries := by ring
      simp only [totalHeld, List.map_cons, List.sum_cons, List.length_cons] at *
      omega

/-- One step preserves the gather invariant under an all-transient oracle. -/
theorem chunkInv_step (maxRetries maxConcurrent n : Nat)
    (attempt : Nat → Nat → ReqOutcome)
    (htr : ∀ i k, (attempt i k).isTransient = true)
    {s t : ChunkState} (hstep : ChunkStep maxRetries attempt s t)
    (hinv : ChunkInv maxRetries maxConcurrent n s) :
    ChunkInv maxRetries maxConcurrent n t := by
  obtain ⟨hlen, hok, hbal⟩ := hinv
  cases hstep with
  | retryStep i r hi hv hr ht =>
      refine ⟨by simpa using hlen, ?_, ?_⟩
      · intro t' ht'
        rcases List.mem_or_eq_of_mem_set ht' with hmem | rfl
        · exact hok t' hmem
        · exact Or.inl ⟨r + 1, by omega, rfl⟩
      · have hset := totalHeld_set s.tasks i (ChunkTask.pending (r + 1)) _ hi
        simp only [heldOf] at hset
        show s.avail - 1 +
          totalHeld (s.tasks.set i (ChunkTask.pending (r + 1))) = maxConcurrent
        omega
  | exhaust i hi hv ht =>
      refine ⟨by simpa using hlen, ?_, ?_⟩
      · intro t' ht'
        rcases List.mem_or_eq_of_mem_set ht' with hmem | rfl
        · exact hok t' hmem
        · exact Or.inr rfl
      · have hset := totalHeld_set s.tasks i
          (ChunkTask.finished none (maxRetries + 1)) _ hi
        simp only [heldOf] at hset
        show s.avail + maxRetries +
          totalHeld (s.tasks.set i (ChunkTask.finished none (maxRetries + 1))) =
            maxConcurrent
        omega
  | success i r v hi hv hok' =>
      exfalso
      have hcontra := htr i r
      rw [hok'] at hcontra
      simp [ReqOutcome.isTransient] at hcontra

/-- The initial gather configuration satisfies the invariant. -/
theorem chunkInv_init (maxRetries maxConcurrent n : Nat) :
    ChunkInv maxRetries maxConcurrent n
      ⟨List.replicate n (ChunkTask.pending 0), maxConcurrent⟩ := by
  refine ⟨by simp, ?_, ?_⟩
  · intro t ht
    rw [List.eq_of_mem_replicate ht]
    exact Or.inl ⟨0, by omega, rfl⟩
  · show maxConcurrent +
      totalHeld (List.replicate n (ChunkTask.pending 0)) = maxConcurrent
    simp [totalHeld, List.map_replicate, heldOf]

/-- The invariant holds in every reachable configuration. -/
theorem chunkInv_reachable (maxRetries maxConcurrent n : Nat)
    (attempt : Nat → Nat → ReqOutcome)
    (htr : ∀ i k, (attempt i k).isTransient = true)
    {s t : ChunkState} (h : ChunkReachable maxRetries attempt s t)
    (h0 : ChunkInv maxRetries maxConcurrent n s) :
    ChunkInv maxRetries maxConcurrent n t := by
  induction h with
  | refl => exact h0
  | step _ hstep ih =>
      exact chunkInv_step maxRetries maxConcurrent n attempt htr hstep ih

/-- While any task still waits, some step is possible: with
`n * max_retries < max_concurrent` the waiting tasks can never hold every
permit. -/
theorem chunk_progress (maxRetries maxConcurrent n : Nat)
    (attempt : Nat → Nat → ReqOutcome)
    (htr : ∀ i k, (attempt i k).isTransient = true)
    (hsmall : n * maxRetries < maxConcurrent) {s : ChunkState}
    (hinv : ChunkInv maxRetries maxConcurrent n s)
    (r : Nat) (hmem : ChunkTask.pending r ∈ s.tasks) :
    ∃ t, ChunkStep maxRetries attempt s t := by
  obtain ⟨hlen, hok, hbal⟩ := hinv
  obtain ⟨i, hi⟩ := List.mem_iff_getElem?.mp hmem
  have hbound := totalHeld_le maxRetries s.tasks hok
  rw [hlen] at hbound
  have havail : 0 < s.avail := by omega
  have hrle : r ≤ maxRetries := by
    rcases hok _ hmem with ⟨r', hr', heq⟩ | heq
    · obtain rfl : r = r' := by
        injection heq
      exact hr'
    · simp [finishedTask] at heq
  rcases Nat.lt_or_ge r maxRetries with hlt | hge
  · exact ⟨_, ChunkStep.retryStep s i r hi havail hlt (htr i r)⟩
  · obtain rfl : maxRetries = r := by omega
    exact ⟨_, ChunkStep.exhaust s i hi havail (htr i maxRetries)⟩

/-! ## Claim C6: database operational-error retry contract -/

/-- Claim C6, counterexample.  The claim says an operational error is retried
exactly once and a second operational failure propagates to the caller.  On
the attempt trace `[OperationalError, OperationalError, ok 5]` the code
instead makes a third attempt and returns that attempt's success: operational
failure never propagates, the recursion just keeps retrying. -/
theorem c6_counterexample :
    execute_stmt [.operationalError, .operationalError, .ok 5] =
      (some (Sum.inl 5), 3) := rfl

/-- Claim C6, amended: `execute_stmt` retries an operational error after a
short pause without any retry bound — it returns the outcome of the first
non-operational attempt, having consumed every leading operational error,
and a trace of only operational errors never produces a propagated failure
(the recursion is still running when the trace ends). -/
theorem c6_amended (tr : List DbAttempt) :
    execute_stmt tr =
      match tr.dropWhile DbAttempt.isOpErr with
      | [] => (none, tr.length)
      | a :: _ => (a.interp, (tr.takeWhile DbAttempt.isOpErr).length + 1) :=
  execute_stmt_spec tr

/-! ## Claim C7: database integrity-error contract -/

/-- Claim C7: an integrity/programming error in `execute_stmt` is never
retried — the statement fails on its first attempt with a typed
`DatabaseException` — while operational errors never surface such a typed
failure (they are retried instead), so the two error classes are
distinguished; each statement's execution is independent of its siblings. -/
theorem c7_integrity_not_retried (m : String) (rest tr : List DbAttempt)
    (hop : ∀ a ∈ tr, a.isOpErr = true) :
    execute_stmt (.integrityError m :: rest) = (some (Sum.inr ⟨m⟩), 1) ∧
    (execute_stmt tr).1 = none := by
  refine ⟨rfl, ?_⟩
  rw [execute_stmt_spec tr, List.dropWhile_eq_nil_iff.mpr hop]

/-- Claim C7, witness at a concrete trace. -/
theorem c7_integrity_not_retried_witness :
    execute_stmt [.integrityError "duplicate key", .ok 1] =
      (some (Sum.inr ⟨"duplicate key"⟩), 1) ∧
    (execute_stmt [.operationalError, .operationalError]).1 = none :=
  c7_integrity_not_retried "duplicate key" [.ok 1]
    [.operationalError, .operationalError] (by decide)

/-! ## Claim C2: partial-failure isolation -/

/-- Claim C2, counterexample.  With ten candidate tasks of which the seventh
(in completion order) raises a permanent service error, the awaiting loop of
`insert_semd_all_info` re-raises that exception — the pipeline run does NOT
return normally, contradicting the claim that the run returns without
propagating the candidate's exception. -/
theorem c2_counterexample :
    insert_semd_all_info
      (List.replicate 6 (Except.ok ()) ++
        Except.error TaskErr.permanentServiceError :: List.replicate 3 (Except.ok ())) =
      Except.error TaskErr.permanentServiceError := rfl

/-- Claim C2, amended: there is no exception handling in the awaiting loop,
in `insert_semd_all_info`, or in `main_scrypt`, so the first task failure in
completion order propagates out of the pipeline run (sibling tasks are
already scheduled and are neither cancelled nor awaited after that point). -/
theorem c2_amended (pre post : List (Except TaskErr Unit)) (e : TaskErr) :
    (∀ r ∈ pre, r = Except.ok ()) →
    insert_semd_all_info (pre ++ Except.error e :: post) = Except.error e := by
  induction pre with
  | nil => intro _; rfl
  | cons r rest ih =>
      intro hpre
      have hr := hpre r (by simp)
      subst hr
      simpa [insert_semd_all_info] using ih fun x hx => hpre x (by simp [hx])

/-- Claim C2 amended, witness at a concrete completion order. -/
theorem c2_amended_witness :
    insert_semd_all_info
      ([Except.ok ()] ++ Except.error TaskErr.permanentServiceError :: [Except.ok ()]) =
      Except.error TaskErr.permanentServiceError :=
  c2_amended [Except.ok ()] [Except.ok ()] TaskErr.permanentServiceError (fun r hr => List.mem_singleton.mp hr)

/-! ## Claim C5: bounded concurrency of reconciliation -/

/-- Claim C5: in any state reachable during a pipeline run over any number of
candidates, the number of `process_semd_data` bodies past the admission gate
never exceeds the gate size of 8. -/
theorem c5_bounded_concurrency (n : Nat) (s : GateState)
    (h : GateReachable n s) : s.running ≤ reconciliation_gate := by
  induction h with
  | init => exact Nat.zero_le _
  | step hreach hstep ih =>
      cases hstep with
      | acquire hw hr => exact hr
      | finish hr => exact le_trans (Nat.sub_le _ 1) ih

/-- Claim C5, witness: a state of a 50-candidate run with one admitted task. -/
theorem c5_bounded_concurrency_witness :
    (⟨49, 1, 0⟩ : GateState).running ≤ reconciliation_gate :=
  c5_bounded_concurrency 50 ⟨49, 1, 0⟩
    (GateReachable.step GateReachable.init
      (GateStep.acquire ⟨50, 0, 0⟩ (by decide) (by decide)))

/-! ## Claim C10: empty-list IndexError in request preparation -/

/-- Claim C10: `prepare_request_values` indexes `data[0]` before considering
emptiness, so the empty list raises `IndexError`, and consequently
`send_requests_in_chunks` applied to zero candidates (at the default
`max_retries = 3`, `max_concurrent = 10`) fails with that exception before
any request or semaphore use, instead of returning an empty result list. -/
theorem c10_empty_list_index_error :
    prepare_request_values (ReqData.list []) = Except.error PyErr.indexError ∧
    send_requests_in_chunks 3 10 ReqData.pyNone [] =
      Except.error PyErr.indexError :=
  ⟨rfl, rfl⟩

/-! ## Claim C3: retry exhaustion in the batched verifier call -/

/-- Claim C3, counterexample.  The claim's universal quantification over
candidate lists fails twice.  For the empty list, `send_requests_in_chunks`
raises `IndexError` during request preparation instead of returning an
empty result.  For ten all-transient-failing candidates at the default
`max_concurrent = 10`, the gather reaches — each task acquiring a permit
for its first attempt, failing, and then queueing for a second permit while
still holding the first — the configuration in which all ten tasks have
made exactly one attempt, every permit is held, and no step is ever
possible again: the call deadlocks and never returns any list, let alone an
all-`null` one with four attempts per candidate. -/
theorem c3_counterexample :
    send_requests_in_chunks 3 10 ReqData.pyNone [] =
      Except.error PyErr.indexError ∧
    send_requests_in_chunks 3 10 ReqData.pyNone
        (List.replicate 10 (ReqItem.model 1)) =
      Except.ok ⟨List.replicate 10 (ChunkTask.pending 0), 10⟩ ∧
    ChunkReachable 3 (fun _ _ => ReqOutcome.timeoutError)
      ⟨List.replicate 10 (ChunkTask.pending 0), 10⟩
      ⟨List.replicate 10 (ChunkTask.pending 1), 0⟩ ∧
    ∀ t, ¬ ChunkStep 3 (fun _ _ => ReqOutcome.timeoutError)
      ⟨List.replicate 10 (ChunkTask.pending 1), 0⟩ t := by
  refine ⟨rfl, rfl, ?_, ?_⟩
  · have h := chunk_fill 3 (fun _ _ => ReqOutcome.timeoutError)
      (fun _ _ => rfl) (by omega) 10 10 (by omega)
    exact chunkCongr h rfl (by simp)
  · exact fun t => no_step_of_avail_zero 3 (fun _ _ => ReqOutcome.timeoutError)
      _ rfl t

/-- Claim C3, amended: for every NONEMPTY candidate list small enough that
the retry recursion cannot exhaust the semaphore
(`n * max_retries < max_concurrent`, e.g. at most 3 candidates at the
defaults `max_retries = 3`, `max_concurrent = 10`), if every request
attempt fails with a transient error the gather launched by
`send_requests_in_chunks` can settle in the configuration where every
candidate has finished with `null` after exactly `max_retries + 1 = 4`
request attempts, and it can settle in no other configuration (in
particular it cannot deadlock).  For lists of at least `max_concurrent`
candidates the gather instead deadlocks after one attempt per admitted
candidate, because each retry re-acquires the semaphore while still holding
it (see the counterexample). -/
theorem c3_retry_exhaustion (maxRetries maxConcurrent : Nat)
    (attempt : Nat → Nat → ReqOutcome) (params : ReqData) (pp : Prepared)
    (json_data : List ReqItem)
    (htr : ∀ i k, (attempt i k).isTransient = true)
    (hne : json_data ≠ [])
    (hmodels : ∀ x ∈ json_data, ∃ m, x = ReqItem.model m)
    (hp : prepare_request_values params = .ok pp)
    (hsmall : json_data.length * maxRetries < maxConcurrent) :
    send_requests_in_chunks maxRetries maxConcurrent params json_data =
      .ok ⟨List.replicate json_data.length (ChunkTask.pending 0),
        maxConcurrent⟩ ∧
    ChunkReachable maxRetries attempt
      ⟨List.replicate json_data.length (ChunkTask.pending 0), maxConcurrent⟩
      ⟨List.replicate json_data.length (finishedTask maxRetries),
        maxConcurrent⟩ ∧
    ∀ s, ChunkReachable maxRetries attempt
        ⟨List.replicate json_data.length (ChunkTask.pending 0),
          maxConcurrent⟩ s →
      (∀ t, ¬ ChunkStep maxRetries attempt s t) →
      s.tasks = List.replicate json_data.length (finishedTask maxRetries) := by
  have hn1 : 1 ≤ json_data.length := by
    cases json_data with
    | nil => exact absurd rfl hne
    | cons _ _ => simp
  have hmc : maxRetries < maxConcurrent := by
    have h1 : 1 * maxRetries ≤ json_data.length * maxRetries :=
      Nat.mul_le_mul_right _ hn1
    omega
  refine ⟨?_, ?_, ?_⟩
  · obtain ⟨x, xs, rfl⟩ := List.exists_cons_of_ne_nil hne
    obtain ⟨m, rfl⟩ := hmodels x (by simp)
    obtain ⟨ms, hms, hlen⟩ := dictAll_models (ReqItem.model m :: xs) hmodels
    unfold send_requests_in_chunks
    rw [hp]
    show (prepare_request_values (.list (ReqItem.model m :: xs))).bind _ = _
    simp only [prepare_request_values, hms, Except.map, Except.bind]
    rw [hlen]
  · have h := chunk_drain maxRetries maxConcurrent attempt htr hmc
      json_data.length 0
    exact chunkCongr h (by simp) (by simp)
  · intro s hreach hstuck
    have hinv := chunkInv_reachable maxRetries maxConcurrent
      json_data.length attempt htr hreach (chunkInv_init _ _ _)
    have hfin : ∀ t ∈ s.tasks, t = finishedTask maxRetries := by
      intro t ht
      rcases hinv.2.1 t ht with ⟨r, hr, rfl⟩ | hf
      · exfalso
        obtain ⟨u, hu⟩ := chunk_progress maxRetries maxConcurrent
          json_data.length attempt htr hsmall hinv r ht
        exact hstuck u hu
      · exact hf
    exact List.eq_replicate_iff.mpr ⟨hinv.1, hfin⟩

/-- Claim C3 amended, witness: two candidates at `max_retries = 3`,
`max_concurrent = 10`, every attempt a protocol failure. -/
theorem c3_retry_exhaustion_witness :
    send_requests_in_chunks 3 10 ReqData.pyNone
        [ReqItem.model 1, ReqItem.model 2] =
      .ok ⟨List.replicate 2 (ChunkTask.pending 0), 10⟩ ∧
    ChunkReachable 3 (fun _ _ => ReqOutcome.protoError)
      ⟨List.replicate 2 (ChunkTask.pending 0), 10⟩
      ⟨List.replicate 2 (finishedTask 3), 10⟩ ∧
    ∀ s, ChunkReachable 3 (fun _ _ => ReqOutcome.protoError)
        ⟨List.replicate 2 (ChunkTask.pending 0), 10⟩ s →
      (∀ t, ¬ ChunkStep 3 (fun _ _ => ReqOutcome.protoError) s t) →
      s.tasks = List.replicate 2 (finishedTask 3) :=
  c3_retry_exhaustion 3 10 (fun _ _ => ReqOutcome.protoError) ReqData.pyNone
    Prepared.pyNone [ReqItem.model 1, ReqItem.model 2] (fun _ _ => rfl)
    (by simp)
    (by
      intro x hx
      rcases List.mem_cons.mp hx with rfl | hx'
      · exact ⟨1, rfl⟩
      · rcases List.mem_cons.mp hx' with rfl | hx''
        · exact ⟨2, rfl⟩
        · simp at hx'')
    rfl (by decide)

/-! ## Helper lemmas about the status table -/

/-- The existence check only fills in `id`; the business key is untouched. -/
theorem check_semd_exist_key (st : StatusDb) (d : SemdInsertModel) :
    (check_semd_exist st d).key = d.key := rfl

/-- When some row already carries the model's business key (in a
well-formed table, so its primary key is truthy), the conditional insert
leaves the table unchanged and still reports success. -/
theorem insert_semd_info_of_mem (st : StatusDb) (d : SemdInsertModel)
    (hwf : st.wf) (hex : ∃ r ∈ st.rows, r.data.key = d.key) :
    insert_semd_info st d = (st, true) := by
  obtain ⟨r0, hr0, hk0⟩ := hex
  have hfind : (st.rows.find? fun r => r.data.key == d.key).isSome := by
    rw [List.find?_isSome]
    exact ⟨r0, hr0, by simp [hk0]⟩
  obtain ⟨r1, hr1⟩ := Option.isSome_iff_exists.mp hfind
  have hpos : 1 ≤ r1.rowId := hwf.2 r1 (List.mem_of_find?_eq_some hr1)
  have hne : (r1.rowId == 0) = false := by
    simp only [beq_eq_false_iff_ne, ne_eq]
    omega
  unfold insert_semd_info check_semd_exist
  rw [hr1]
  simp [optTruthy, hne]

/-- When no row carries the model's business key, the insert appends exactly
one row, carrying that key, with the next autoincrement primary key. -/
theorem insert_semd_info_of_not_mem (st : StatusDb) (d : SemdInsertModel)
    (habs : ∀ r ∈ st.rows, r.data.key ≠ d.key) :
    insert_semd_info st d =
      ({ rows := st.rows ++ [⟨st.nextId, { d with id := none }⟩],
         nextId := st.nextId + 1 }, true) := by
  have hfind : (st.rows.find? fun r => r.data.key == d.key) = none := by
    rw [List.find?_eq_none]
    intro r hr
    simpa using habs r hr
  unfold insert_semd_info check_semd_exist
  rw [hfind]
  simp [optTruthy]

/-- The conditional insert preserves well-formedness of the table. -/
theorem insert_semd_info_wf (st : StatusDb) (d : SemdInsertModel)
    (hwf : st.wf) : (insert_semd_info st d).1.wf := by
  unfold insert_semd_info
  cases hi : optTruthy (check_semd_exist st d).id with
  | true => simpa [hi] using hwf
  | false =>
      simp only [hi, Bool.false_eq_true, if_false]
      refine ⟨by show (1 : Int) ≤ st.nextId + 1; have := hwf.1; omega, ?_⟩
      intro r hr
      rcases List.mem_append.mp hr with hr' | hr'
      · exact hwf.2 r hr'
      · rcases List.mem_singleton.mp hr' with rfl
        exact hwf.1

/-- The conditional insert keeps every business key held by at most one
row. -/
theorem insert_semd_info_count (st : StatusDb) (d : SemdInsertModel)
    (k : SemdKey) (hwf : st.wf) (hk : countKey st k ≤ 1) :
    countKey (insert_semd_info st d).1 k ≤ 1 := by
  by_cases hex : ∃ r ∈ st.rows, r.data.key = d.key
  · rw [insert_semd_info_of_mem st d hwf hex]
    exact hk
  · push_neg at hex
    rw [insert_semd_info_of_not_mem st d hex]
    unfold countKey at hk ⊢
    simp only [List.filter_append]
    rw [List.length_append]
    by_cases hdk : d.key = k
    · have hzero :
          (st.rows.filter fun r => r.data.key == k) = [] := by
        rw [List.filter_eq_nil_iff]
        intro r hr
        simp only [beq_iff_eq]
        rw [← hdk]
        exact hex r hr
      rw [hzero]
      have hk' : ({ d with id := none } : SemdInsertModel).key = k := hdk
      simp [List.filter_cons, hk']
    · have hone :
          (([⟨st.nextId, { d with id := none }⟩] : List StatusRow).filter
            fun r => r.data.key == k) = [] := by
        rw [List.filter_eq_nil_iff]
        intro r hr
        rcases List.mem_singleton.mp hr with rfl
        simpa [SemdInsertModel.key] using hdk
      rw [hone]
      simpa using hk


/-- One sequential pipeline run preserves well-formedness and the
at-most-one-row-per-key invariant. -/
theorem processRun_inv (verify : SemdInfo → SemdInsertModel)
    (cs : List SemdInfo) :
    ∀ (st : StatusDb) (k : SemdKey), st.wf → countKey st k ≤ 1 →
      (processRun verify st cs).wf ∧ countKey (processRun verify st cs) k ≤ 1 := by
  induction cs with
  | nil => intro st k h1 h2; exact ⟨h1, h2⟩
  | cons c cs ih =>
      intro st k h1 h2
      unfold processRun at *
      rw [List.foldl_cons]
      exact ih _ k (insert_semd_info_wf _ _ h1)
        (insert_semd_info_count _ _ k h1 h2)

/-- Any number of sequential pipeline runs preserves the invariant. -/
theorem runs_inv (verify : SemdInfo → SemdInsertModel)
    (runs : List (List SemdInfo)) :
    ∀ (st : StatusDb) (k : SemdKey), st.wf → countKey st k ≤ 1 →
      countKey (runs.foldl (processRun verify) st) k ≤ 1 := by
  induction runs with
  | nil => intro st k _ h2; exact h2
  | cons cs runs ih =>
      intro st k h1 h2
      rw [List.foldl_cons]
      have h := processRun_inv verify cs st k h1 h2
      exact ih _ k h.1 h.2

/-! ## Claim C1: idempotence of reconciliation -/

/-- Claim C1: over a well-formed status table in which business key `k` is
held by at most one row, (a) reconciling a candidate whose business key
already has a matching record inserts no new row, and (b) after any number
of sequential pipeline runs over any (overlapping) candidate lists, at most
one record exists for `k`. -/
theorem c1_idempotent_reconciliation (verify : SemdInfo → SemdInsertModel)
    (st : StatusDb) (c : SemdInfo) (k : SemdKey) (runs : List (List SemdInfo))
    (hwf : st.wf) (hk : countKey st k ≤ 1)
    (hex : ∃ r ∈ st.rows, r.data.key = (verify c).key) :
    (process_semd_data verify st c).1 = st ∧
    countKey (runs.foldl (processRun verify) st) k ≤ 1 := by
  constructor
  · unfold process_semd_data
    rw [insert_semd_info_of_mem st (verify c) hwf hex]
  · exact runs_inv verify runs st k hwf hk

/-- Claim C1, witness: the spec's concrete candidate, already recorded,
processed again and then re-run over the same window. -/
theorem c1_idempotent_reconciliation_witness :
    (process_semd_data (fun _ => sampleInsert) sampleDb sampleInfo).1 = sampleDb ∧
    countKey ([[sampleInfo]].foldl (processRun fun _ => sampleInsert) sampleDb)
      sampleInsert.key ≤ 1 :=
  c1_idempotent_reconciliation (fun _ => sampleInsert) sampleDb sampleInfo
    sampleInsert.key [[sampleInfo]] ⟨by decide, by decide⟩ (by decide)
    ⟨⟨1, sampleInsert⟩, by decide, rfl⟩

/-! ## Claim C8: key completeness -/

/-- Claim C8: for a candidate whose verification outcome carries the
candidate's business key (the verifier echoes the key fields, per the
interface contract) and for which no status record exists yet,
`process_semd_data` appends exactly one record whose composite key equals
the candidate's `(event_id, person_id, client_id, doc_oid, template_id,
semd_name, semd_code, action_id)` tuple. -/
theorem c8_key_completeness (verify : SemdInfo → SemdInsertModel)
    (st : StatusDb) (c : SemdInfo)
    (hkey : (verify c).key = c.key)
    (habs : ∀ r ∈ st.rows, r.data.key ≠ c.key) :
    ∃ row : StatusRow,
      (process_semd_data verify st c).1.rows = st.rows ++ [row] ∧
      row.data.key = c.key := by
  have habs' : ∀ r ∈ st.rows, r.data.key ≠ (verify c).key := by
    intro r hr
    rw [hkey]
    exact habs r hr
  unfold process_semd_data
  rw [insert_semd_info_of_not_mem st (verify c) habs']
  exact ⟨⟨st.nextId, { verify c with id := none }⟩, rfl, hkey⟩

/-- Claim C8, witness: the spec's concrete candidate inserted into an empty
table by an echoing verifier. -/
theorem c8_key_completeness_witness :
    ∃ row : StatusRow,
      (process_semd_data (fun _ => sampleInsert) emptyDb sampleInfo).1.rows =
        emptyDb.rows ++ [row] ∧
      row.data.key = sampleInfo.key :=
  c8_key_completeness (fun _ => sampleInsert) emptyDb sampleInfo rfl
    (by intro r hr; simp [emptyDb] at hr)

/-! ## Claim C4: union correctness of the collector -/

/-- Claim C4: whenever both source queries succeed, `collect_semd_all_info`
returns exactly the concatenation of the action-sourced and event-sourced
candidate lists, so every element's multiplicity in the combined list is the
sum of its multiplicities in the two sources — nothing lost, nothing
added. -/
theorem c4_union_correctness (db : ClinicalDb) (s e : Int)
    (as bs : List SemdInfo)
    (ha : collect_semd_action_info db s e = some as)
    (hb : collect_semd_event_info db s e = some bs) :
    collect_semd_all_info db s e = some (as ++ bs) ∧
    ∀ x : SemdInfo, (as ++ bs).count x = as.count x + bs.count x := by
  refine ⟨?_, ?_⟩
  · unfold collect_semd_all_info
    rw [ha, hb]
  · intro x
    exact List.count_append x as bs

/-- Claim C4, witness: the one-action store, where the action query yields
one candidate and the event query none. -/
theorem c4_union_correctness_witness :
    collect_semd_all_info sampleClinicalDb 0 10 = some ([sampleCandidate] ++ []) ∧
    ∀ x : SemdInfo, ([sampleCandidate] ++ ([] : List SemdInfo)).count x =
      [sampleCandidate].count x + ([] : List SemdInfo).count x :=
  c4_union_correctness sampleClinicalDb 0 10 [sampleCandidate] [] (by decide) (by decide)

/-! ## Claim C9: collector filter postcondition -/

/-- Decomposition of membership in the action query's join rows. -/
theorem mem_actionJoinRows {db : ClinicalDb} {j : ActionJoined}
    (h : j ∈ actionJoinRows db) :
    j.a ∈ db.actions ∧
    j.oat ∈ leftJoin db.actionTypes (fun at' => at'.id == j.a.actionType_id) ∧
    j.orpt ∈ leftJoin db.printTemplates
        (fun rpt => optOn j.oat fun at' => rpt.context == at'.context) ∧
    j.odoc ∈ leftJoin db.iemkDocs
        (fun doc => optOn j.orpt fun rpt => sqlEqOpt doc.id rpt.documentType_id) ∧
    j.oev ∈ leftJoin db.events (fun ev => sqlEqOpt ev.id j.a.event_id) ∧
    j.ocl ∈ leftJoin db.clients
        (fun cl => optOn j.oev fun ev => sqlEqOpt cl.id ev.client_id) := by
  unfold actionJoinRows at h
  simp only [List.mem_flatMap, List.mem_map] at h
  obtain ⟨a, ha, oat, hoat, orpt, horpt, odoc, hodoc, oev, hoev, ocl, hocl, rfl⟩ := h
  exact ⟨ha, hoat, horpt, hodoc, hoev, hocl⟩

/-- A leg that satisfies an `optOn` filter and was produced by a LEFT JOIN is
a real matching row of the joined table. -/
theorem leftJoin_resolve {α : Type} {rows : List α} {cond p : α → Bool}
    {o : Option α} (hmem : o ∈ leftJoin rows cond) (hp : optOn o p = true) :
    ∃ x, o = some x ∧ x ∈ rows ∧ cond x = true ∧ p x = true := by
  obtain ⟨x, rfl, hpx⟩ := optOn_true hp
  rcases mem_leftJoin hmem with hnone | ⟨y, hy, hymem, hycond⟩
  · cases hnone
  · obtain rfl : x = y := by injection hy
    exact ⟨x, rfl, hymem, hycond, hpx⟩

/-- Claim C9: every candidate returned by `collect_semd_action_info` for a
window comes from an `Action` row that is non-deleted, has completed status
(`status = 2`), has its begin date inside the window, and resolves through
all five lookup joins (`ActionType`, `rbPrintTemplate`, `rbIEMKDocument`,
`Event`, `Client`, each leg non-deleted where filtered) to an XML-typed
document whose code does not match the `%SMS%` exclusion pattern; the
candidate's fields are exactly the selected columns of that resolved row.
A procedure whose join legs do not all resolve cannot appear in the result,
since every returned candidate resolves them. -/
theorem c9_action_filter_postcondition (db : ClinicalDb) (s e : Int)
    (cs : List SemdInfo) (c : SemdInfo)
    (hcol : collect_semd_action_info db s e = some cs) (hc : c ∈ cs) :
    ∃ a ∈ db.actions, ∃ at' ∈ db.actionTypes, ∃ rpt ∈ db.printTemplates,
      ∃ doc ∈ db.iemkDocs, ∃ ev ∈ db.events, ∃ cl ∈ db.clients,
      a.deleted = 0 ∧ a.status = 2 ∧
      (∃ d, a.begDate = some d ∧ s ≤ d ∧ d ≤ e ∧ c.date_start = toString d) ∧
      at'.id = a.actionType_id ∧ at'.deleted = 0 ∧
      rpt.context = at'.context ∧ rpt.deleted = 0 ∧
      rpt.documentType_id = some doc.id ∧
      doc.type = some "xml" ∧ likeSMS doc.code = false ∧
      a.event_id = some ev.id ∧ ev.deleted = 0 ∧
      ev.client_id = some cl.id ∧ cl.deleted = 0 ∧
      c.action_id = some a.id ∧ c.event_id = ev.id ∧ c.person_id = a.person_id ∧
      c.client_id = cl.id ∧ doc.EGISZ_code = some c.doc_oid ∧
      c.template_id = rpt.id ∧ c.semd_name = doc.name ∧ c.semd_code = doc.code := by
  unfold collect_semd_action_info at hcol
  obtain ⟨row, hrowmem, hof⟩ := prepare_result_mem _ cs c hcol hc
  rw [List.mem_map] at hrowmem
  obtain ⟨j, hj, rfl⟩ := hrowmem
  rw [List.mem_filter] at hj
  obtain ⟨hjmem, hwhere⟩ := hj
  obtain ⟨hamem, hoat, horpt, hodoc, hoev, hocl⟩ := mem_actionJoinRows hjmem
  unfold actionWhere at hwhere
  simp only [Bool.and_eq_true] at hwhere
  obtain ⟨⟨⟨⟨⟨⟨⟨⟨⟨⟨hdel, hbeg1⟩, hbeg2⟩, hstat⟩, hevdel⟩, hatdel⟩,
    hcldel⟩, hrptdel⟩, hatdel2⟩, htype⟩, hsms⟩ := hwhere
  -- resolve the five legs
  obtain ⟨at', hat_eq, hatmem, hatcond, hatdel'⟩ := leftJoin_resolve hoat hatdel
  obtain ⟨rpt, hrpt_eq, hrptmem, hrptcond, hrptdel'⟩ := leftJoin_resolve horpt hrptdel
  obtain ⟨doc, hdoc_eq, hdocmem, hdoccond, hdoctype⟩ := leftJoin_resolve hodoc htype
  obtain ⟨ev, hev_eq, hevmem, hevcond, hevdel'⟩ := leftJoin_resolve hoev hevdel
  obtain ⟨cl, hcl_eq, hclmem, hclcond, hcldel'⟩ := leftJoin_resolve hocl hcldel
  obtain ⟨d, hbd, hsd⟩ := optOn_true hbeg1
  have hde : d ≤ e := by
    obtain ⟨d', hbd', hd'⟩ := optOn_true hbeg2
    rw [hbd] at hbd'
    obtain rfl : d = d' := by injection hbd'
    exact of_decide_eq_true hd'
  have hsd' : s ≤ d := of_decide_eq_true hsd
  -- the SMS exclusion on the resolved document
  have hsms' : likeSMS doc.code = false := by
    rw [hdoc_eq] at hsms
    simpa [optOn] using hsms
  -- join conditions in equational form
  have hctx : rpt.context = at'.context := by
    rw [hat_eq] at hrptcond
    simpa [optOn, beq_iff_eq] using hrptcond
  have hdoct : rpt.documentType_id = some doc.id := by
    rw [hrpt_eq] at hdoccond
    simp only [optOn] at hdoccond
    exact sqlEqOpt_eq hdoccond
  have hevid : j.a.event_id = some ev.id := sqlEqOpt_eq hevcond
  have hclid : ev.client_id = some cl.id := by
    rw [hev_eq] at hclcond
    simp only [optOn] at hclcond
    exact sqlEqOpt_eq hclcond
  -- the document type filter
  have htype' : doc.type = some "xml" := by
    simpa [beq_iff_eq] using hdoctype
  -- the selected row, with every leg resolved
  have hdocoid : ∃ oid, doc.EGISZ_code = some oid := by
    cases hoid : doc.EGISZ_code with
    | none =>
        exfalso
        unfold SemdInfo.ofRow actionSelect at hof
        rw [hdoc_eq] at hof
        simp [hoid] at hof
    | some oid => exact ⟨oid, rfl⟩
  obtain ⟨oid, hoid⟩ := hdocoid
  have hrow : actionSelect j =
      { event_id := some ev.id, person_id := j.a.person_id,
        client_id := some cl.id, doc_oid := some oid,
        template_id := some rpt.id, semd_name := some doc.name,
        semd_code := some doc.code, date_start := some (toString d),
        action_id := some j.a.id } := by
    unfold actionSelect
    rw [hat_eq, hrpt_eq, hdoc_eq, hev_eq, hcl_eq] at *
    simp [hevid, hclid, hoid, hbd]
  rw [hrow] at hof
  unfold SemdInfo.ofRow at hof
  simp only [Option.some.injEq] at hof
  subst hof
  refine ⟨j.a, hamem, at', hatmem, rpt, hrptmem, doc, hdocmem, ev, hevmem,
    cl, hclmem, ?_, ?_, ⟨d, hbd, hsd', hde, rfl⟩, ?_, ?_, hctx, ?_, hdoct,
    htype', hsms', hevid, ?_, hclid, ?_, rfl, rfl, rfl, rfl, hoid, rfl, rfl, rfl⟩
  · simpa [beq_iff_eq] using hdel
  · simpa [beq_iff_eq] using hstat
  · simpa [beq_iff_eq] using hatcond
  · simpa [beq_iff_eq] using hatdel'
  · simpa [beq_iff_eq] using hrptdel'
  · simpa [beq_iff_eq] using hevdel'
  · simpa [beq_iff_eq] using hcldel'

/-- Claim C9, witness: the one-action clinical store, whose single
candidate resolves every join leg. -/
theorem c9_action_filter_postcondition_witness :
    ∃ a ∈ sampleClinicalDb.actions, ∃ at' ∈ sampleClinicalDb.actionTypes,
      ∃ rpt ∈ sampleClinicalDb.printTemplates,
      ∃ doc ∈ sampleClinicalDb.iemkDocs, ∃ ev ∈ sampleClinicalDb.events,
      ∃ cl ∈ sampleClinicalDb.clients,
      a.deleted = 0 ∧ a.status = 2 ∧
      (∃ d, a.begDate = some d ∧ 0 ≤ d ∧ d ≤ 10 ∧
        sampleCandidate.date_start = toString d) ∧
      at'.id = a.actionType_id ∧ at'.deleted = 0 ∧
      rpt.context = at'.context ∧ rpt.deleted = 0 ∧
      rpt.documentType_id = some doc.id ∧
      doc.type = some "xml" ∧ likeSMS doc.code = false ∧
      a.event_id = some ev.id ∧ ev.deleted = 0 ∧
      ev.client_id = some cl.id ∧ cl.deleted = 0 ∧
      sampleCandidate.action_id = some a.id ∧ sampleCandidate.event_id = ev.id ∧
      sampleCandidate.person_id = a.person_id ∧
      sampleCandidate.client_id = cl.id ∧
      doc.EGISZ_code = some sampleCandidate.doc_oid ∧
      sampleCandidate.template_id = rpt.id ∧
      sampleCandidate.semd_name = doc.name ∧
      sampleCandidate.semd_code = doc.code :=
  c9_action_filter_postcondition sampleClinicalDb 0 10 [sampleCandidate]
    sampleCandidate (by decide) (by simp)

end MonitoringSEMD
